import Mathlib

/-!
Verification of the duwop service process against its specification.

Every definition below is a shallow embedding of a function from the
repository sources (file and symbol given in each doc comment); strings
are embedded as lists of characters so that the byte-level operations of
the source (splitn, ends_with, trim_end, slicing) can be mirrored exactly.
Filesystem and socket effects are passed in explicitly as oracles.
-/

namespace Duwop

/-- Characters of a Rust string slice. -/
abbrev Chars := List Char

/-! ## String primitives mirroring the Rust std operations used by the code -/

/-- Mirrors one step of Rust `str::splitn(2, c)`: the part before the first
occurrence of the separator, and the rest after it (none when the separator
does not occur). Iterating it yields `splitn(k, c)` for any `k`. -/
def splitOnce (c : Char) : Chars → Chars × Option Chars
  | [] => ([], none)
  | x :: xs =>
    if x = c then ([], some xs)
    else
      let r := splitOnce c xs
      (x :: r.1, r.2)

/-- The set of characters Rust `char::is_whitespace` (Unicode White_Space)
recognises. -/
def rustIsWhitespace (c : Char) : Bool :=
  c = ' ' || c = '\t' || c = '\n' || c = '\x0b' || c = '\x0c' || c = '\r' ||
  c = '\x85' || c = '\xa0' || c = '\u1680' ||
  ('\u2000' ≤ c && c ≤ '\u200a') ||
  c = '\u2028' || c = '\u2029' || c = '\u202f' || c = '\u205f' || c = '\u3000'

/-- Mirrors Rust `str::trim_end`: drop trailing whitespace characters. -/
def trimEnd (s : Chars) : Chars :=
  (s.reverse.dropWhile rustIsWhitespace).reverse

/-- Mirrors Rust `str::ends_with(suffix)`. -/
def endsWith (suffix s : Chars) : Bool :=
  suffix.isSuffixOf s

/-- Parse a decimal `u16` the way the `std::net` socket-address parser reads a
port: one or more ASCII digits, value below 2^16. -/
def parsePort (s : Chars) : Option Nat :=
  if s = [] || !(s.all Char.isDigit) then none
  else
    let v := s.foldl (fun acc c => acc * 10 + (c.toNat - 48)) 0
    if v < 65536 then some v else none

/-- Parse one IPv4 octet as the `std::net` parser does: one to three ASCII
digits, no redundant leading zero, value at most 255. -/
def parseOctet (s : Chars) : Option Nat :=
  if s = [] || s.length > 3 || !(s.all Char.isDigit) then none
  else if s.length > 1 && s.head? = some '0' then none
  else
    let v := s.foldl (fun acc c => acc * 10 + (c.toNat - 48)) 0
    if v ≤ 255 then some v else none

/-- An IPv4 address as four octets. -/
structure IPv4 where
  a : Nat
  b : Nat
  c : Nat
  d : Nat
deriving DecidableEq, Repr

/-- `Ipv4Addr::LOCALHOST`. -/
def localhost : IPv4 := ⟨127, 0, 0, 1⟩

/-- A socket address: IPv4 host and port. -/
structure SockAddr where
  ip : IPv4
  port : Nat
deriving DecidableEq, Repr

/-- Split at the last occurrence of a character (used for the `host:port`
split of `SocketAddr::from_str`). -/
def splitLast (c : Char) (s : Chars) : Option (Chars × Chars) :=
  match splitOnce c s.reverse with
  | (_, none) => none
  | (revPort, some revHost) => some (revHost.reverse, revPort.reverse)

/-- Worker for `splitAll`: accumulates the current piece reversed. -/
def splitAllAux (c : Char) : Chars → Chars → List Chars
  | [], acc => [acc.reverse]
  | x :: xs, acc =>
    if x = c then acc.reverse :: splitAllAux c xs []
    else splitAllAux c xs (x :: acc)

/-- Split a list on every occurrence of a character, as Rust `str::split`. -/
def splitAll (c : Char) (s : Chars) : List Chars :=
  splitAllAux c s []

/-- Mirrors `std::net::SocketAddr::from_str` for the dotted-quad IPv4 form
`a.b.c.d:port` (the bracketed IPv6 form is not modelled; inputs of that shape
are treated as unparsable, which no claim exercises). -/
def sockAddrFromStr (s : Chars) : Option SockAddr :=
  match splitLast ':' s with
  | none => none
  | some (hostStr, portStr) =>
    match parsePort portStr with
    | none => none
    | some port =>
      match (splitAll '.' hostStr).mapM parseOctet with
      | some [a, b, c, d] => some ⟨⟨a, b, c, d⟩, port⟩
      | _ => none

/-! ## DNS responder (src/dns/mod.rs)

The wire codec lives in `dns/protocol.rs`, which is not part of the sources
here; only the record shapes that `lookup` and its in-repo tests use are
modelled. -/

/-- Query types distinguished by `lookup` (dns/protocol.rs, declaration used
by src/dns/mod.rs). -/
inductive QueryType where
  | A
  | AAAA
  | CNAME
  | MX
  | NS
  | SOA
  | UNKNOWN (x : Nat)
deriving DecidableEq, Repr

/-- DNS result codes used by the responder. -/
inductive ResultCode where
  | NOERROR
  | FORMERR
  | SERVFAIL
  | NXDOMAIN
  | NOTIMP
  | REFUSED
deriving DecidableEq, Repr

/-- The header fields of a DNS packet that `lookup` reads or writes. -/
structure DnsHeader where
  id : Nat
  recursion_desired : Bool
  response : Bool
  opcode : Nat
  rescode : ResultCode
deriving DecidableEq, Repr

/-- A DNS question: qname and qtype. -/
structure DnsQuestion where
  name : Chars
  qtype : QueryType
deriving DecidableEq, Repr

/-- The only resource record the responder ever constructs. -/
inductive DnsRecord where
  | A (domain : Chars) (addr : IPv4) (ttl : Nat)
deriving DecidableEq, Repr

/-- The parts of a DNS packet that `lookup` touches. -/
structure DnsPacket where
  header : DnsHeader
  questions : List DnsQuestion
  answers : List DnsRecord
deriving DecidableEq, Repr

/-- Modelled from the spec: `DnsPacket::new` lives in `dns/protocol.rs`,
which is absent from the sources. Per the spec's response policy (answers
carry RCODE NOERROR unless a branch overrides it) and the in-repo tests in
src/dns/mod.rs, a fresh packet has all flags clear, id 0 and rescode
NOERROR. -/
def DnsPacket.new : DnsPacket :=
  { header := { id := 0, recursion_desired := false, response := false,
                opcode := 0, rescode := ResultCode.NOERROR },
    questions := [], answers := [] }

/-- `lookup` — src/dns/mod.rs lines 49-103: build the response packet for a
parsed request. -/
def lookup (request : DnsPacket) : DnsPacket :=
  let base : DnsPacket :=
    { DnsPacket.new with
      header := { DnsPacket.new.header with
                  response := true,
                  id := request.header.id,
                  recursion_desired := request.header.recursion_desired } }
  match request.questions with
  | [] => { base with header := { base.header with rescode := ResultCode.NOTIMP } }
  | query :: _ =>
    let resp := { base with questions := [query] }
    if request.header.response then
      { resp with header := { resp.header with rescode := ResultCode.NOTIMP } }
    else if request.header.opcode ≠ 0 then
      { resp with header := { resp.header with rescode := ResultCode.NOTIMP } }
    else if !(endsWith ( ".test" ).toList query.name) then
      { resp with header := { resp.header with rescode := ResultCode.SERVFAIL } }
    else
      match query.qtype with
      | QueryType.A =>
        { resp with answers := [DnsRecord.A query.name localhost 0] }
      | QueryType.AAAA | QueryType.CNAME | QueryType.MX
      | QueryType.NS | QueryType.SOA =>
        { resp with header := { resp.header with rescode := ResultCode.NOERROR } }
      | QueryType.UNKNOWN _ =>
        { resp with header := { resp.header with rescode := ResultCode.SERVFAIL } }

/-- ASCII lowercasing of one character, as DNS label normalisation does. -/
def asciiLower (c : Char) : Char :=
  if 'A' ≤ c && c ≤ 'Z' then Char.ofNat (c.toNat + 32) else c

/-- Modelled from the spec: the wire parser (`dns/protocol.rs`, absent from
the sources) delivers qnames to `lookup`. The spec states the managed-label
check is case-insensitive; since `lookup` compares the parsed qname literally
against `.test`, the parser normalises qnames to ASCII lowercase. -/
def parseWireName (s : Chars) : Chars :=
  s.map asciiLower

/-- The responder as seen from the wire: `lookup` applied to the packet whose
question names the parser normalised. -/
def wireLookup (request : DnsPacket) : DnsPacket :=
  lookup { request with
           questions := request.questions.map
             (fun q => { q with name := parseWireName q.name }) }

/-- Case-insensitive `ends_with`, the comparison the spec describes. -/
def endsWithCI (suffix s : Chars) : Bool :=
  endsWith (suffix.map asciiLower) (s.map asciiLower)

/-! ## Service registry (src/state.rs) -/

/-- A filesystem path as its components (Rust `Path` component view). -/
abbrev FsPath := List Chars

/-- `ServiceType` — src/state.rs lines 13-19. -/
inductive ServiceType where
  | StaticFiles (root : FsPath)
  | ReverseProxy (addr : SockAddr)
  | InvalidConfig (reason : Chars)
deriving DecidableEq, Repr

/-- `ServiceConfigError` — src/state.rs lines 137-141.  A non-UTF-8 filename
is carried as its raw bytes. -/
inductive ServiceConfigError where
  | NameError (raw : List Nat)
  | IoError (msg : Chars)
deriving DecidableEq, Repr

/-- `AppState` — src/state.rs lines 143-148.  The services map is embedded as
an association list (key uniqueness comes from directory filenames). -/
structure AppState where
  services : List (Chars × ServiceType)
  errors : List ServiceConfigError
  path : FsPath
deriving DecidableEq, Repr

/-- `HashMap::insert`: replace the value at the key or append a new pair. -/
def insertAssoc (m : List (Chars × ServiceType)) (k : Chars) (v : ServiceType) :
    List (Chars × ServiceType) :=
  match m with
  | [] => [(k, v)]
  | (k2, v2) :: rest =>
    if k2 = k then (k, v) :: rest else (k2, v2) :: insertAssoc rest k v

/-- `HashMap::get`. -/
def lookupAssoc (m : List (Chars × ServiceType)) (k : Chars) : Option ServiceType :=
  match m with
  | [] => none
  | (k2, v) :: rest => if k2 = k then some v else lookupAssoc rest k

deriving instance DecidableEq for Except

/-- What a directory entry offers to `parse_config`: either a directory
(with the outcome of `fs::canonicalize`) or a regular file (with the outcome
of opening and reading it; on success, the full contents). -/
inductive EntryKind where
  | dir (canon : Except Chars FsPath)
  | file (contents : Except Chars Chars)
deriving DecidableEq, Repr

/-- A directory entry name: `OsString::into_string`, which succeeds on valid
Unicode and otherwise returns the raw bytes. -/
inductive EntryName where
  | utf8 (s : Chars)
  | nonUtf8 (raw : List Nat)
deriving DecidableEq, Repr

/-- One entry produced by `read_dir`. -/
structure DirEntry where
  name : EntryName
  kind : EntryKind
deriving DecidableEq, Repr

/-- The outcome of `read_dir` plus the per-entry iteration results: the walk
itself can fail, and each yielded entry can be an error. -/
abbrev ReadDirResult := Except Chars (List (Except Chars DirEntry))

/-- `read_first_line_from_file` — src/state.rs lines 213-219. `read_line`
stops after the first newline (inclusive) and `trim_end` then removes it
together with any other trailing whitespace, so the result is the first line
with trailing whitespace dropped. -/
def read_first_line_from_file (contents : Chars) : Chars :=
  trimEnd (contents.takeWhile (fun c => c ≠ '\n'))

/-- `ServiceType::parse_proxy` — src/state.rs lines 48-62. -/
def parse_proxy (addrOption : Option Chars) : ServiceType :=
  match addrOption with
  | some addrStr =>
    match sockAddrFromStr addrStr with
    | some addr => ServiceType.ReverseProxy ⟨localhost, addr.port⟩
    | none =>
      ServiceType.InvalidConfig
        ( "not a valid <host:port> address: ".toList ++ addrStr)
  | none => ServiceType.InvalidConfig ( "missing socket address".toList)

/-- The regular-file branch of `ServiceType::parse_config` (src/state.rs
lines 27-40) applied to the first line.  `splitn(2, c)` always yields a
first part, so the `None => "missing directive"` arm of the source is
unreachable and has no counterpart here. -/
def parseConfigLine (first_line : Chars) : ServiceType :=
  let parts := splitOnce ':' first_line
  if parts.1 = ( "proxy" ).toList then parse_proxy parts.2
  else
    ServiceType.InvalidConfig
      ( "invalid directive: '".toList ++ parts.1 ++ ( "'" ).toList)

/-- `ServiceType::parse_config` — src/state.rs lines 22-42. -/
def parse_config (entry : EntryKind) : Except Chars ServiceType :=
  match entry with
  | EntryKind.dir canon => canon.map ServiceType.StaticFiles
  | EntryKind.file contents =>
    contents.map (fun c => parseConfigLine (read_first_line_from_file c))

/-- The entry loop of `AppState::load_services` (src/state.rs lines 177-200).
A failing iteration step (`entry?`) aborts with the error before the final
snapshot assignment; the state handed back is then the untouched input. -/
def loadServicesGo (st : AppState) :
    List (Except Chars DirEntry) → List (Chars × ServiceType) →
    List ServiceConfigError → AppState × Except Chars Unit
  | [], acc, errs => ({ st with services := acc, errors := errs }, Except.ok ())
  | Except.error e :: _, _, _ => (st, Except.error e)
  | Except.ok entry :: rest, acc, errs =>
    match entry.name with
    | EntryName.utf8 key =>
      match parse_config entry.kind with
      | Except.ok serviceType => loadServicesGo st rest (insertAssoc acc key serviceType) errs
      | Except.error err =>
        loadServicesGo st rest acc
          (errs ++ [ServiceConfigError.IoError
            ([ '"' ] ++ key ++ [ '"', ':', ' ' ] ++ err)])
    | EntryName.nonUtf8 raw =>
      loadServicesGo st rest acc (errs ++ [ServiceConfigError.NameError raw])

/-- `AppState::load_services` — src/state.rs lines 171-206, with the
filesystem walk passed in as `rd`.  Returns the state as the method leaves
`self`, paired with its `Result`.  (The `context` wrapper around a failing
`read_dir` is abbreviated to a fixed prefix; no claim depends on its text.) -/
def load_services (rd : ReadDirResult) (st : AppState) : AppState × Except Chars Unit :=
  match rd with
  | Except.error e => (st, Except.error ( "reading state directory: ".toList ++ e))
  | Except.ok entries => loadServicesGo st entries [] []

/-! ## Static file server (src/web/static_files.rs) -/

/-- Rust `Path` component normalisation of a relative string: split on the
separator and drop empty and `.` components. -/
def pathComponents (s : Chars) : List Chars :=
  (splitAll '/' s).filter (fun p => !(p = [] || p = [ '.' ]))

/-- `PathBuf::push` of a string: an absolute argument replaces the whole
path, otherwise its components are appended. -/
def pathPush (p : FsPath) (rel : Chars) : FsPath :=
  if rel.head? = some '/' then pathComponents rel else p ++ pathComponents rel

/-- `str::find(c)`. -/
def findChar (c : Char) (s : Chars) : Option Nat :=
  match splitOnce c s with
  | (p, some _) => some p.length
  | (_, none) => none

/-- The path handed to `canonicalize` by `local_path_for_request`
(src/web/static_files.rs lines 80-91): query string stripped, joined onto
the root, `index.html` appended for directory requests. -/
def requestJoin (request_path : Chars) (root_dir : FsPath) : FsPath :=
  let e := (findChar '?' request_path).getD request_path.length
  let rp := request_path.take e
  let path := pathPush root_dir (rp.drop 1)
  if rp.getLast? = some '/' then path ++ [( "index.html" ).toList] else path

/-- `local_path_for_request` — src/web/static_files.rs lines 74-108.  The
filesystem is the oracle `fs`, mapping a path to its canonical form when
canonicalization succeeds. -/
def local_path_for_request (fs : FsPath → Option FsPath)
    (request_path : Chars) (root_dir : FsPath) : Option FsPath :=
  if request_path.head? ≠ some '/' then none
  else
    match fs (requestJoin request_path root_dir) with
    | some pth => if !(root_dir.isPrefixOf pth) then none else some pth
    | none => none

/-- The response status of `serve` (src/web/static_files.rs lines 13-30):
404 when the resolver yields nothing, otherwise 200 on a successful open
and 500 on an open error (`openOk` is the open oracle). -/
def serveStaticStatus (fs : FsPath → Option FsPath) (openOk : FsPath → Bool)
    (request_path : Chars) (root_dir : FsPath) : Nat :=
  match local_path_for_request fs request_path root_dir with
  | some path => if openOk path then 200 else 500
  | none => 404

/-! ## HTTP front-end dispatch (src/web/mod.rs) -/

/-- `extract_host` — src/web/mod.rs lines 220-233. -/
def extract_host (hostHeader : Option Chars) : Except Chars Chars :=
  match hostHeader with
  | none => Except.error ( "Couldn\x27t extract header host".toList)
  | some header =>
    let host := (splitOnce ':' header).1
    if endsWith ( ".test" ).toList host then Except.ok (host.take (host.length - 5))
    else Except.error ( "invalid host domain: ".toList ++ host)

/-- Where `MainService::call` sends a request. -/
inductive Dispatch where
  | toStaticFiles (root : FsPath)
  | toReverseProxy (addr : SockAddr)
  | response (status : Nat) (body : Chars)
deriving DecidableEq, Repr

/-- `MainService::call` — src/web/mod.rs lines 190-218.  Error responses
carry the statuses of src/web/errors.rs: `internal_server_error` is a 500
with empty body, `handle_404` a 404 with empty body, and the invalid-config
arm a 500 whose body is the stored reason. -/
def MainService.call (services : List (Chars × ServiceType))
    (hostHeader : Option Chars) : Dispatch :=
  match extract_host hostHeader with
  | Except.error _ => Dispatch.response 500 []
  | Except.ok key =>
    match lookupAssoc services key with
    | none => Dispatch.response 404 []
    | some (ServiceType.StaticFiles path) => Dispatch.toStaticFiles path
    | some (ServiceType.ReverseProxy addr) => Dispatch.toReverseProxy addr
    | some (ServiceType.InvalidConfig message) => Dispatch.response 500 message

/-! ## TLS leaf SAN list (src/ssl.rs) -/

/-- The SubjectAlternativeName DNS entries built by `mk_ca_signed_cert` —
src/ssl.rs lines 124-135: `duwop.test` alone for an empty input, otherwise
`<name>.test` and `*.<name>.test` for each name in order. -/
def sanDnsNames (dns_names_for_san : List Chars) : List Chars :=
  if dns_names_for_san.isEmpty then [( "duwop.test" ).toList]
  else
    dns_names_for_san.flatMap
      (fun name => [name ++ ( ".test" ).toList,
                    ( "*." ).toList ++ name ++ ( ".test" ).toList])

/-! ## Management endpoint (src/management/mod.rs) -/

/-- `LogLevel` — src/management/mod.rs lines 46-56. -/
inductive LogLevel where
  | DebugLevel
  | TraceLevel
  | CustomLevel (value : Chars)
deriving DecidableEq, Repr

/-- `Request` — src/management/mod.rs lines 27-43. -/
inductive Request where
  | ReloadState
  | SetLogLevel (level : LogLevel)
  | ResetLogLevel
  | ServerStatus
  | ReloadSsl
deriving DecidableEq, Repr

/-- `Response` — src/management/mod.rs lines 59-69. -/
inductive Response where
  | Done
  | Ok (msg : Chars)
  | Error (m : Chars)
deriving DecidableEq, Repr

/-- `Request::parse` — src/management/mod.rs lines 177-203.  `splitn(3, c)`
is two iterated `splitOnce` steps: the third piece is the raw remainder. -/
def Request.parse (input : Chars) : Except Chars Request :=
  let p1 := splitOnce ' ' input
  if p1.1 = ( "Reload" ).toList then
    match p1.2 with
    | some _ => Except.error ( "Reload doesn\x27t take arguments".toList)
    | none => Except.ok Request.ReloadState
  else if p1.1 = ( "Log" ).toList then
    match p1.2 with
    | none => Except.error ( "Log requires command".toList)
    | some rest =>
      let p2 := splitOnce ' ' rest
      if p2.1 = ( "reset" ).toList then Except.ok Request.ResetLogLevel
      else if p2.1 = ( "debug" ).toList then
        Except.ok (Request.SetLogLevel LogLevel.DebugLevel)
      else if p2.1 = ( "trace" ).toList then
        Except.ok (Request.SetLogLevel LogLevel.TraceLevel)
      else if p2.1 = ( "custom" ).toList then
        match p2.2 with
        | some value => Except.ok (Request.SetLogLevel (LogLevel.CustomLevel value))
        | none => Except.error ( "custom log level requires value".toList)
      else Except.error ( "invalid log command: ".toList ++ p2.1)
  else if p1.1 = ( "Status" ).toList then Except.ok Request.ServerStatus
  else if p1.1 = ( "ReloadSsl" ).toList then Except.ok Request.ReloadSsl
  else Except.error ( "invalid command: ".toList ++ p1.1)

/-- `Request::serialize` — src/management/mod.rs lines 205-217. -/
def Request.serialize (r : Request) : Chars :=
  match r with
  | Request.ReloadState => ( "Reload" ).toList
  | Request.SetLogLevel LogLevel.DebugLevel => ( "Log debug" ).toList
  | Request.SetLogLevel LogLevel.TraceLevel => ( "Log trace" ).toList
  | Request.SetLogLevel (LogLevel.CustomLevel value) => ( "Log custom " ).toList ++ value
  | Request.ResetLogLevel => ( "Log reset" ).toList
  | Request.ServerStatus => ( "Status" ).toList
  | Request.ReloadSsl => ( "ReloadSsl" ).toList

/-- `Response::serialize` — src/management/mod.rs lines 238-246. -/
def Response.serialize (r : Response) : Chars :=
  match r with
  | Response.Done => ( "OK" ).toList
  | Response.Ok msg => ( "OK: " ).toList ++ msg
  | Response.Error m => ( "ERROR " ).toList ++ m

/-- The effects a management session reaches: the state-directory walk seen
by a reload, and `LogSpecification::parse`. -/
structure MgmtEnv where
  readDir : ReadDirResult
  logParse : Chars → Except Chars Unit

/-- The server data a session touches: the shared `AppState`, the count of
notifications sent on the ssl channel, the installed log spec, and the
configured default log level (`Server.log_level`). -/
structure ServerState where
  app : AppState
  sslSignals : Nat
  logSpec : Option Chars
  defaultLogLevel : Chars
deriving DecidableEq, Repr

/-- `Server::handle_reload_state` — src/management/mod.rs lines 133-150. -/
def handle_reload_state (env : MgmtEnv) (st : ServerState) : ServerState × Response :=
  match load_services env.readDir st.app with
  | (app2, Except.ok _) => ({ st with app := app2 }, Response.Done)
  | (app2, Except.error e) =>
    ({ st with app := app2 }, Response.Error ( "error reloading: ".toList ++ e))

/-- `Server::handle_reload_ssl` — src/management/mod.rs lines 142-150:
send on the notification channel, reply with the fixed message. -/
def handle_reload_ssl (st : ServerState) : ServerState × Response :=
  ({ st with sslSignals := st.sslSignals + 1 },
   Response.Ok ( "Ssl replacement initiated. Please check.".toList))

/-- `Server::handle_set_log_level` — src/management/mod.rs lines 152-168. -/
def handle_set_log_level (env : MgmtEnv) (st : ServerState) (level : LogLevel) :
    ServerState × Response :=
  let spec := match level with
    | LogLevel.DebugLevel => ( "duwop=debug" ).toList
    | LogLevel.TraceLevel => ( "duwop=trace" ).toList
    | LogLevel.CustomLevel value => value
  match env.logParse spec with
  | Except.ok _ => ({ st with logSpec := some spec }, Response.Done)
  | Except.error err =>
    (st, Response.Error ( "error setting log level: ".toList ++ err))

/-- One request line of a session (the closure in `Server::run`,
src/management/mod.rs lines 103-119): parse, act, answer — a parse failure
becomes an `Error` response without touching the state. -/
def stepLine (env : MgmtEnv) (st : ServerState) (line : Chars) :
    ServerState × Response :=
  match Request.parse line with
  | Except.error e => (st, Response.Error e)
  | Except.ok Request.ReloadState => handle_reload_state env st
  | Except.ok (Request.SetLogLevel level) => handle_set_log_level env st level
  | Except.ok Request.ResetLogLevel =>
    handle_set_log_level env st (LogLevel.CustomLevel st.defaultLogLevel)
  | Except.ok Request.ServerStatus => (st, Response.Done)
  | Except.ok Request.ReloadSsl => handle_reload_ssl st

/-- A whole session (`Server::run`, src/management/mod.rs lines 90-131):
each line is answered in turn with its serialized response plus newline. -/
def session (env : MgmtEnv) : ServerState → List Chars → ServerState × List Chars
  | st, [] => (st, [])
  | st, l :: ls =>
    let sr := stepLine env st l
    let rest := session env sr.1 ls
    (rest.1, (sr.2.serialize ++ [ '\n' ]) :: rest.2)


/-- Written from the spec words of claim C5, for comparison with the source
behaviour only: the first line of the contents trimmed of just the trailing
newline (and of nothing else). -/
def firstLineNewlineOnly (contents : Chars) : Chars :=
  contents.takeWhile (fun c => c ≠ '\n')

/-! ## Helper lemmas -/

theorem splitOnce_not_mem (c : Char) (s : Chars) (h : c ∉ s) :
    splitOnce c s = (s, none) := by
  induction s with
  | nil => rfl
  | cons x xs ih =>
    simp only [List.mem_cons, not_or] at h
    simp only [splitOnce]
    rw [if_neg (fun hx => h.1 hx.symm), ih h.2]

theorem splitOnce_append (c : Char) (xs ys : Chars) (h : c ∉ xs) :
    splitOnce c (xs ++ c :: ys) = (xs, some ys) := by
  induction xs with
  | nil => simp [splitOnce]
  | cons x xt ih =>
    simp only [List.mem_cons, not_or] at h
    simp only [List.cons_append, splitOnce]
    rw [if_neg (fun hx => h.1 hx.symm)]
    simp only [List.append_eq]
    rw [ih h.2]

theorem endsWith_append (t s : Chars) : endsWith t (s ++ t) = true := by
  simp [endsWith, List.isSuffixOf]

theorem takeWhile_neq_append (x : Char) (l rest : Chars) (h : x ∉ l) :
    (l ++ x :: rest).takeWhile (fun c => c ≠ x) = l := by
  induction l with
  | nil => simp [List.takeWhile]
  | cons a as ih =>
    simp only [List.mem_cons, not_or] at h
    have ha : (a = x) = False := eq_false (fun hax => h.1 hax.symm)
    simp [List.cons_append, List.takeWhile_cons, ha]
    simpa using ih h.2

theorem loadServicesGo_error (st : AppState) (entries : List (Except Chars DirEntry)) :
    ∀ (acc : List (Chars × ServiceType)) (errs : List ServiceConfigError) (e : Chars),
      (loadServicesGo st entries acc errs).2 = Except.error e →
      (loadServicesGo st entries acc errs).1 = st := by
  induction entries with
  | nil => intro acc errs e h; simp [loadServicesGo] at h
  | cons hd tl ih =>
    intro acc errs e h
    cases hd with
    | error e2 => simp [loadServicesGo]
    | ok entry =>
      cases hname : entry.name with
      | utf8 key =>
        cases hp : parse_config entry.kind with
        | ok serviceType =>
          simp only [loadServicesGo, hname, hp] at h ⊢
          exact ih _ _ _ h
        | error err =>
          simp only [loadServicesGo, hname, hp] at h ⊢
          exact ih _ _ _ h
      | nonUtf8 raw =>
        simp only [loadServicesGo, hname] at h ⊢
        exact ih _ _ _ h

theorem session_length (env : MgmtEnv) (ls : List Chars) :
    ∀ (st : ServerState), ((session env st ls).2).length = ls.length := by
  induction ls with
  | nil => intro st; rfl
  | cons l rest ih => intro st; simp [session, ih]

/-! ## The claims -/

/-- Claim C10: the management wire protocol round-trips on the request side —
for every `Request` value (ReloadState, SetLogLevel of debug / trace / any
custom spec string, ResetLogLevel, ServerStatus, ReloadSsl), `Request::parse`
applied to `Request::serialize` returns `Ok` of the original value, including
custom log specs containing spaces. -/
theorem request_parse_serialize_roundtrip (r : Request) :
    Request.parse (Request.serialize r) = Except.ok r := by
  cases r with
  | ReloadState => decide
  | SetLogLevel level =>
    cases level with
    | DebugLevel => decide
    | TraceLevel => decide
    | CustomLevel value => rfl
  | ResetLogLevel => decide
  | ServerStatus => decide
  | ReloadSsl => decide

/-- Claim C4: for every list of registry names given to the TLS leaf
generator, a non-empty list yields a SubjectAlternativeName containing DNS
entries `<N>.test` and `*.<N>.test` for every name `N` in the list, and the
empty list yields exactly the single DNS entry `duwop.test`. -/
theorem san_covers_registry (names : List Chars) (n : Chars)
    (hne : names ≠ []) (hmem : n ∈ names) :
    ((n ++ ( ".test" ).toList) ∈ sanDnsNames names
      ∧ (( "*." ).toList ++ n ++ ( ".test" ).toList) ∈ sanDnsNames names)
    ∧ sanDnsNames [] = [( "duwop.test" ).toList] := by
  constructor
  · have hempty : names.isEmpty = false := by
      cases names with
      | nil => exact absurd rfl hne
      | cons a as => rfl
    constructor
    · simp only [sanDnsNames, hempty, Bool.false_eq_true, if_false, List.mem_flatMap]
      exact ⟨n, hmem, by simp⟩
    · simp only [sanDnsNames, hempty, Bool.false_eq_true, if_false, List.mem_flatMap]
      exact ⟨n, hmem, by simp [List.append_assoc]⟩
  · rfl

/-- Witness for claim C4 at the concrete registry `[blog]`. -/
theorem san_covers_registry_witness :
    ( "blog.test" ).toList ∈ sanDnsNames [( "blog" ).toList]
    ∧ ( "*.blog.test" ).toList ∈ sanDnsNames [( "blog" ).toList] :=
  ⟨(san_covers_registry [( "blog" ).toList] ( "blog" ).toList (by decide)
      (by simp)).1.1,
   (san_covers_registry [( "blog" ).toList] ( "blog" ).toList (by decide)
      (by simp)).1.2⟩

/-- Claim C3: if a registry reload fails — the state directory cannot be
read, or a directory entry errors during iteration — `load_services` returns
an error and the state it leaves behind (services map and diagnostics list
alike) is exactly the previous one. -/
theorem load_services_all_or_nothing (rd : ReadDirResult) (st : AppState)
    (e : Chars) (h : (load_services rd st).2 = Except.error e) :
    (load_services rd st).1 = st := by
  cases rd with
  | error msg => rfl
  | ok entries => exact loadServicesGo_error st entries [] [] e h

/-- Witness for claim C3: a failing walk and a failing entry both leave a
concrete non-empty snapshot untouched. -/
theorem load_services_all_or_nothing_witness :
    (load_services (Except.error ( "boom" ).toList)
      ⟨[(( "blog" ).toList, ServiceType.ReverseProxy ⟨localhost, 3000⟩)], [], []⟩).1 =
      ⟨[(( "blog" ).toList, ServiceType.ReverseProxy ⟨localhost, 3000⟩)], [], []⟩
    ∧ (load_services (Except.ok [Except.error ( "io" ).toList])
      ⟨[(( "blog" ).toList, ServiceType.ReverseProxy ⟨localhost, 3000⟩)], [], []⟩).1 =
      ⟨[(( "blog" ).toList, ServiceType.ReverseProxy ⟨localhost, 3000⟩)], [], []⟩ :=
  ⟨load_services_all_or_nothing _ _ ( "reading state directory: boom" ).toList (by decide),
   load_services_all_or_nothing _ _ ( "io" ).toList (by decide)⟩

/-- Claim C1: every path the static resolver returns extends the root
(componentwise prefix, the meaning of `Path::starts_with`); a request path
not starting with a slash, a failing canonicalization, or a canonical path
escaping the root all produce `None`, and `serve` answers `None` with 404,
never 500. -/
theorem static_resolver_confined (fs : FsPath → Option FsPath)
    (openOk : FsPath → Bool) (request_path : Chars) (root_dir : FsPath) :
    (∀ pth, local_path_for_request fs request_path root_dir = some pth →
       List.isPrefixOf root_dir pth = true)
    ∧ (request_path.head? ≠ some '/' →
       local_path_for_request fs request_path root_dir = none)
    ∧ (fs (requestJoin request_path root_dir) = none →
       local_path_for_request fs request_path root_dir = none)
    ∧ (∀ pth, fs (requestJoin request_path root_dir) = some pth →
       List.isPrefixOf root_dir pth = false →
       local_path_for_request fs request_path root_dir = none)
    ∧ (local_path_for_request fs request_path root_dir = none →
       serveStaticStatus fs openOk request_path root_dir = 404) := by
  refine ⟨?_, ?_, ?_, ?_, ?_⟩
  · intro pth h
    by_cases hs : request_path.head? = some '/'
    · cases hfs : fs (requestJoin request_path root_dir) with
      | none => simp [local_path_for_request, hs, hfs] at h
      | some q =>
        by_cases hp : List.isPrefixOf root_dir q = true
        · simp [local_path_for_request, hs, hfs, hp] at h
          exact h ▸ hp
        · simp only [Bool.not_eq_true] at hp
          simp [local_path_for_request, hs, hfs, hp] at h
    · simp [local_path_for_request, hs] at h
  · intro hs
    simp [local_path_for_request, hs]
  · intro hfs
    by_cases hs : request_path.head? = some '/'
    · simp [local_path_for_request, hs, hfs]
    · simp [local_path_for_request, hs]
  · intro pth hfs hp
    by_cases hs : request_path.head? = some '/'
    · simp [local_path_for_request, hs, hfs, hp]
    · simp [local_path_for_request, hs]
  · intro h
    simp [serveStaticStatus, h]

/-- Witness for claim C1 at a tiny concrete filesystem. -/
theorem static_resolver_confined_witness :
    List.isPrefixOf [( "r" ).toList] [( "r" ).toList, ( "a" ).toList] = true
    ∧ serveStaticStatus (fun _ => none) (fun _ => true)
        ( "/a" ).toList [( "r" ).toList] = 404 :=
  ⟨(static_resolver_confined
      (fun p => if p = [( "r" ).toList, ( "a" ).toList]
                then some [( "r" ).toList, ( "a" ).toList] else none)
      (fun _ => true) ( "/a" ).toList [( "r" ).toList]).1
      [( "r" ).toList, ( "a" ).toList] (by decide),
   (static_resolver_confined (fun _ => none) (fun _ => true)
      ( "/a" ).toList [( "r" ).toList]).2.2.2.2 (by decide)⟩


/-- Claim C2: for every DNS query packet with at least one question, response
flag clear, opcode 0, qtype A and qname ending with `.test`, `lookup` returns
a NOERROR response whose single answer is `A 127.0.0.1` with TTL 0 and the
original qname, echoing the request id, question and recursion-desired bit. -/
theorem dns_lookup_a_answers (p : DnsPacket) (q : DnsQuestion)
    (hq : p.questions.head? = some q)
    (hresp : p.header.response = false)
    (hop : p.header.opcode = 0)
    (htype : q.qtype = QueryType.A)
    (hname : endsWith ( ".test" ).toList q.name = true) :
    lookup p = { header := { id := p.header.id,
                             recursion_desired := p.header.recursion_desired,
                             response := true, opcode := 0,
                             rescode := ResultCode.NOERROR },
                 questions := [q],
                 answers := [DnsRecord.A q.name localhost 0] } := by
  cases hqs : p.questions with
  | nil => rw [hqs] at hq; exact absurd hq (by simp)
  | cons q0 rest =>
    rw [hqs] at hq
    simp only [List.head?_cons, Option.some.injEq] at hq
    subst hq
    have hname2 : endsWith [ '.', 't', 'e', 's', 't' ] q0.name = true := hname
    simp [lookup, hqs, hresp, hop, htype, hname2, DnsPacket.new]

/-- Witness for claim C2: the literal query of the spec scenario,
id 0x1234 for `foo.bar.test`. -/
theorem dns_lookup_a_answers_witness :
    lookup { header := { id := 4660, recursion_desired := true,
                         response := false, opcode := 0,
                         rescode := ResultCode.NOERROR },
             questions := [{ name := ( "foo.bar.test" ).toList,
                             qtype := QueryType.A }],
             answers := [] } =
      { header := { id := 4660, recursion_desired := true,
                    response := true, opcode := 0,
                    rescode := ResultCode.NOERROR },
        questions := [{ name := ( "foo.bar.test" ).toList,
                        qtype := QueryType.A }],
        answers := [DnsRecord.A ( "foo.bar.test" ).toList localhost 0] } :=
  dns_lookup_a_answers _ _ (by decide) (by decide) (by decide) (by decide)
    (by decide)

/-- Claim C7 counterexample: a query of an unknown qtype whose qname does end
with `.test` (so it is inside the managed label under any comparison) is
still answered SERVFAIL with zero answers, refuting the claim that SERVFAIL
with zero answers happens exactly when the qname escapes the label. -/
theorem dns_servfail_unknown_qtype_counterexample :
    (wireLookup { header := { id := 10, recursion_desired := false,
                              response := false, opcode := 0,
                              rescode := ResultCode.NOERROR },
                  questions := [{ name := ( "a.test" ).toList,
                                  qtype := QueryType.UNKNOWN 99 }],
                  answers := [] }).header.rescode = ResultCode.SERVFAIL
    ∧ (wireLookup { header := { id := 10, recursion_desired := false,
                                response := false, opcode := 0,
                                rescode := ResultCode.NOERROR },
                    questions := [{ name := ( "a.test" ).toList,
                                    qtype := QueryType.UNKNOWN 99 }],
                    answers := [] }).answers = []
    ∧ endsWithCI ( ".test" ).toList ( "a.test" ).toList = true := by decide

/-- Claim C7 as amended: over the wire (the parser normalises qnames to
lowercase; modelled from the spec, `dns/protocol.rs` being absent), a valid
query is answered SERVFAIL with zero answers exactly when its qname does not
end with `.test` case-insensitively or its qtype is unknown; in particular a
type-A query for a qname ending in `.TEST` is answered, not SERVFAIL'd. -/
theorem dns_wire_servfail_characterisation (p : DnsPacket) (q : DnsQuestion)
    (rest : List DnsQuestion)
    (hq : p.questions = q :: rest)
    (hresp : p.header.response = false)
    (hop : p.header.opcode = 0) :
    (((wireLookup p).header.rescode = ResultCode.SERVFAIL
        ∧ (wireLookup p).answers = [])
      ↔ (endsWithCI ( ".test" ).toList q.name = false
          ∨ ∃ x, q.qtype = QueryType.UNKNOWN x))
    ∧ (q.qtype = QueryType.A → endsWithCI ( ".test" ).toList q.name = true →
        (wireLookup p).header.rescode = ResultCode.NOERROR
        ∧ (wireLookup p).answers = [DnsRecord.A (parseWireName q.name) localhost 0]) := by
  have hci : endsWithCI [ '.', 't', 'e', 's', 't' ] q.name
      = endsWith [ '.', 't', 'e', 's', 't' ] (List.map asciiLower q.name) := by
    show endsWith (List.map asciiLower [ '.', 't', 'e', 's', 't' ])
        (List.map asciiLower q.name) = _
    rw [show List.map asciiLower [ '.', 't', 'e', 's', 't' ]
        = [ '.', 't', 'e', 's', 't' ] from by decide]
  by_cases hend : endsWith [ '.', 't', 'e', 's', 't' ] (List.map asciiLower q.name) = true
  · cases htype : q.qtype with
    | A =>
      constructor
      · simp [wireLookup, lookup, parseWireName, hq, hresp, hop, hend, hci, htype]
      · intro _ _
        simp [wireLookup, lookup, parseWireName, hq, hresp, hop, hend, htype,
              DnsPacket.new]
    | AAAA =>
      constructor
      · simp [wireLookup, lookup, parseWireName, hq, hresp, hop, hend, hci, htype]
      · intro hA _; exact absurd hA (by simp)
    | CNAME =>
      constructor
      · simp [wireLookup, lookup, parseWireName, hq, hresp, hop, hend, hci, htype]
      · intro hA _; exact absurd hA (by simp)
    | MX =>
      constructor
      · simp [wireLookup, lookup, parseWireName, hq, hresp, hop, hend, hci, htype]
      · intro hA _; exact absurd hA (by simp)
    | NS =>
      constructor
      · simp [wireLookup, lookup, parseWireName, hq, hresp, hop, hend, hci, htype]
      · intro hA _; exact absurd hA (by simp)
    | SOA =>
      constructor
      · simp [wireLookup, lookup, parseWireName, hq, hresp, hop, hend, hci, htype]
      · intro hA _; exact absurd hA (by simp)
    | UNKNOWN x =>
      constructor
      · simp [wireLookup, lookup, parseWireName, hq, hresp, hop, hend, hci, htype,
              DnsPacket.new]
      · intro hA _; exact absurd hA (by simp)
  · rw [Bool.not_eq_true] at hend
    constructor
    · simp [wireLookup, lookup, parseWireName, hq, hresp, hop, hend, hci,
            DnsPacket.new]
    · intro _ hciTrue
      have hciTrue2 : endsWithCI [ '.', 't', 'e', 's', 't' ] q.name = true := hciTrue
      rw [hci, hend] at hciTrue2
      exact absurd hciTrue2 (by decide)

/-- Witness for the amended claim C7: an uppercase-suffix A query is
answered with the normalised qname. -/
theorem dns_wire_servfail_characterisation_witness :
    (wireLookup { header := { id := 7, recursion_desired := false,
                              response := false, opcode := 0,
                              rescode := ResultCode.NOERROR },
                  questions := [{ name := ( "Foo.TEST" ).toList,
                                  qtype := QueryType.A }],
                  answers := [] }).header.rescode = ResultCode.NOERROR
    ∧ (wireLookup { header := { id := 7, recursion_desired := false,
                                response := false, opcode := 0,
                                rescode := ResultCode.NOERROR },
                    questions := [{ name := ( "Foo.TEST" ).toList,
                                    qtype := QueryType.A }],
                    answers := [] }).answers =
      [DnsRecord.A (parseWireName ( "Foo.TEST" ).toList) localhost 0] :=
  (dns_wire_servfail_characterisation _
      { name := ( "Foo.TEST" ).toList, qtype := QueryType.A } []
      rfl rfl rfl).2 rfl (by decide)


/-- Claim C5 counterexample: a first line with trailing whitespace before the
newline.  The code trims all trailing whitespace (`trim_end`), so the file
`"proxy \n"` parses as a bare `proxy` directive and yields
`InvalidConfig("missing socket address")`; reading the claim literally — the
first line trimmed of only the trailing newline, here `"proxy "` — would
classify it as an unknown directive `'proxy '` instead. -/
theorem first_line_trim_counterexample :
    parse_config (EntryKind.file (Except.ok ( "proxy \n" ).toList)) =
      Except.ok (ServiceType.InvalidConfig ( "missing socket address" ).toList)
    ∧ firstLineNewlineOnly ( "proxy \n" ).toList = ( "proxy " ).toList
    ∧ parseConfigLine ( "proxy " ).toList =
      ServiceType.InvalidConfig ( "invalid directive: 'proxy '" ).toList := by
  decide

/-- Claim C5 as amended: parsing a regular file considers only its first
line trimmed of trailing whitespace (not only the newline); on that line,
`proxy:<addr>` with a parsable address yields a loopback `ReverseProxy` with
the parsed port, a bare `proxy` yields `InvalidConfig("missing socket
address")`, `proxy:` with an unparsable address yields an `InvalidConfig`
beginning `not a valid <host:port> address`, and any other directive `d`
yields `InvalidConfig("invalid directive: '<d>'")`. -/
theorem parse_config_first_line_directives :
    (∀ (l rest : Chars), '\n' ∉ l →
       parse_config (EntryKind.file (Except.ok (l ++ '\n' :: rest))) =
         Except.ok (parseConfigLine (trimEnd l)))
    ∧ (∀ (addrStr : Chars) (a : SockAddr), sockAddrFromStr addrStr = some a →
       parseConfigLine (( "proxy:" ).toList ++ addrStr) =
         ServiceType.ReverseProxy ⟨localhost, a.port⟩)
    ∧ parseConfigLine ( "proxy" ).toList =
        ServiceType.InvalidConfig ( "missing socket address" ).toList
    ∧ (∀ (addrStr : Chars), sockAddrFromStr addrStr = none →
       parseConfigLine (( "proxy:" ).toList ++ addrStr) =
         ServiceType.InvalidConfig
           (( "not a valid <host:port> address: " ).toList ++ addrStr))
    ∧ (∀ (line : Chars), (splitOnce ':' line).1 ≠ ( "proxy" ).toList →
       parseConfigLine line =
         ServiceType.InvalidConfig
           (( "invalid directive: '" ).toList ++ (splitOnce ':' line).1
             ++ ( "'" ).toList)) := by
  refine ⟨?_, ?_, by decide, ?_, ?_⟩
  · intro l rest hnl
    have hline : read_first_line_from_file (l ++ '\n' :: rest) = trimEnd l := by
      simp only [read_first_line_from_file]
      rw [takeWhile_neq_append '\n' l rest hnl]
    simp [parse_config, Except.map, hline]
  · intro addrStr a h
    show parse_proxy (some addrStr) = _
    simp [parse_proxy, h]
  · intro addrStr h
    show parse_proxy (some addrStr) = _
    simp [parse_proxy, h]
  · intro line hd
    have hd2 : (splitOnce ':' line).1 ≠ [ 'p', 'r', 'o', 'x', 'y' ] := hd
    simp [parseConfigLine, hd2]

/-- Witness for the amended claim C5 on the literal directives of the
repository tests. -/
theorem parse_config_first_line_directives_witness :
    parse_config (EntryKind.file (Except.ok ( "proxy:127.0.0.1:3000\nrest" ).toList)) =
      Except.ok (parseConfigLine (trimEnd ( "proxy:127.0.0.1:3000" ).toList))
    ∧ parseConfigLine (( "proxy:" ).toList ++ ( "127.0.0.1:3000" ).toList) =
      ServiceType.ReverseProxy ⟨localhost, 3000⟩
    ∧ parseConfigLine (( "proxy:" ).toList ++ ( "localhost" ).toList) =
      ServiceType.InvalidConfig
        (( "not a valid <host:port> address: " ).toList ++ ( "localhost" ).toList)
    ∧ parseConfigLine ( "wrong:something" ).toList =
      ServiceType.InvalidConfig
        (( "invalid directive: '" ).toList
          ++ (splitOnce ':' ( "wrong:something" ).toList).1 ++ ( "'" ).toList) :=
  ⟨parse_config_first_line_directives.1
      ( "proxy:127.0.0.1:3000" ).toList ( "rest" ).toList (by decide),
   parse_config_first_line_directives.2.1
      ( "127.0.0.1:3000" ).toList ⟨⟨127, 0, 0, 1⟩, 3000⟩ (by decide),
   parse_config_first_line_directives.2.2.2.1
      ( "localhost" ).toList (by decide),
   parse_config_first_line_directives.2.2.2.2
      ( "wrong:something" ).toList (by decide)⟩

/-- Claim C6: per-request dispatch — a missing Host header or a host whose
first `:`-segment does not end with `.test` answers 500; a key absent from
the registry answers 404; `InvalidConfig` answers 500 with the stored reason
as body; `StaticFiles` and `ReverseProxy` delegate to the static file server
and the reverse proxy. -/
theorem main_dispatch_statuses (services : List (Chars × ServiceType))
    (hostHeader : Option Chars) (key msg : Chars) (root : FsPath)
    (addr : SockAddr) :
    (hostHeader = none →
       MainService.call services hostHeader = Dispatch.response 500 [])
    ∧ (∀ h2, hostHeader = some h2 →
       endsWith ( ".test" ).toList (splitOnce ':' h2).1 = false →
       MainService.call services hostHeader = Dispatch.response 500 [])
    ∧ (extract_host hostHeader = Except.ok key →
       lookupAssoc services key = none →
       MainService.call services hostHeader = Dispatch.response 404 [])
    ∧ (extract_host hostHeader = Except.ok key →
       lookupAssoc services key = some (ServiceType.InvalidConfig msg) →
       MainService.call services hostHeader = Dispatch.response 500 msg)
    ∧ (extract_host hostHeader = Except.ok key →
       lookupAssoc services key = some (ServiceType.StaticFiles root) →
       MainService.call services hostHeader = Dispatch.toStaticFiles root)
    ∧ (extract_host hostHeader = Except.ok key →
       lookupAssoc services key = some (ServiceType.ReverseProxy addr) →
       MainService.call services hostHeader = Dispatch.toReverseProxy addr) := by
  refine ⟨?_, ?_, ?_, ?_, ?_, ?_⟩
  · intro h; subst h; rfl
  · intro h2 hh hend
    subst hh
    have hend2 : endsWith [ '.', 't', 'e', 's', 't' ] (splitOnce ':' h2).1 = false := hend
    simp [MainService.call, extract_host, hend2]
  · intro hex hlk; simp [MainService.call, hex, hlk]
  · intro hex hlk; simp [MainService.call, hex, hlk]
  · intro hex hlk; simp [MainService.call, hex, hlk]
  · intro hex hlk; simp [MainService.call, hex, hlk]

/-- Witness for claim C6 on a one-entry registry holding an invalid config. -/
theorem main_dispatch_statuses_witness :
    MainService.call [(( "key" ).toList,
        ServiceType.InvalidConfig ( "invalid config" ).toList)] none =
      Dispatch.response 500 []
    ∧ MainService.call [(( "key" ).toList,
        ServiceType.InvalidConfig ( "invalid config" ).toList)]
        (some ( "example.com" ).toList) = Dispatch.response 500 []
    ∧ MainService.call [(( "key" ).toList,
        ServiceType.InvalidConfig ( "invalid config" ).toList)]
        (some ( "undefined.test" ).toList) = Dispatch.response 404 []
    ∧ MainService.call [(( "key" ).toList,
        ServiceType.InvalidConfig ( "invalid config" ).toList)]
        (some ( "key.test" ).toList) =
      Dispatch.response 500 ( "invalid config" ).toList :=
  ⟨(main_dispatch_statuses _ none [] [] [] ⟨localhost, 0⟩).1 rfl,
   (main_dispatch_statuses _ _ [] [] [] ⟨localhost, 0⟩).2.1
      ( "example.com" ).toList rfl (by decide),
   (main_dispatch_statuses _ _ ( "undefined" ).toList [] [] ⟨localhost, 0⟩).2.2.1
      (by decide) (by decide),
   (main_dispatch_statuses _ _ ( "key" ).toList ( "invalid config" ).toList []
      ⟨localhost, 0⟩).2.2.2.1 (by decide) (by decide)⟩

/-- Claim C8 counterexample: `extract_host` never lowercases — Host
`Blog.test` produces the key `Blog`, which misses a registry entry stored
under `blog`, while Host `blog.test` hits it. -/
theorem host_lowercase_counterexample :
    extract_host (some ( "Blog.test" ).toList) = Except.ok ( "Blog" ).toList
    ∧ MainService.call [(( "blog" ).toList,
        ServiceType.StaticFiles [( "www" ).toList])]
        (some ( "Blog.test" ).toList) = Dispatch.response 404 []
    ∧ MainService.call [(( "blog" ).toList,
        ServiceType.StaticFiles [( "www" ).toList])]
        (some ( "blog.test" ).toList) =
      Dispatch.toStaticFiles [( "www" ).toList] := by
  decide

/-- Claim C8 as amended: the lookup key is the Host value up to the first
`:` with the final `.test` removed, compared case-sensitively and without
any lowercasing against the raw filename keys, so a host name dispatches to
an entry exactly when it equals the stored key character for character. -/
theorem host_key_case_sensitive (entryKey name2 : Chars) (root : FsPath)
    (hc : ':' ∉ name2) :
    extract_host (some (name2 ++ ( ".test" ).toList)) = Except.ok name2
    ∧ MainService.call [(entryKey, ServiceType.StaticFiles root)]
        (some (name2 ++ ( ".test" ).toList)) =
      (if entryKey = name2 then Dispatch.toStaticFiles root
       else Dispatch.response 404 []) := by
  have hs : splitOnce ':' (name2 ++ ( ".test" ).toList)
      = (name2 ++ ( ".test" ).toList, none) := by
    refine splitOnce_not_mem ':' _ ?_
    intro hm
    rcases List.mem_append.mp hm with h1 | h1
    · exact hc h1
    · revert h1; decide
  have hend : endsWith ( ".test" ).toList (name2 ++ ( ".test" ).toList) = true :=
    endsWith_append _ _
  have hlen : (name2 ++ ( ".test" ).toList).length - 5 = name2.length := by
    simp [List.length_append]
  have hextract : extract_host (some (name2 ++ ( ".test" ).toList))
      = Except.ok name2 := by
    simp only [extract_host, hs, hend, if_true]
    rw [hlen, List.take_left]
  refine ⟨hextract, ?_⟩
  simp only [MainService.call, hextract]
  by_cases he : entryKey = name2
  · simp [lookupAssoc, he]
  · simp [lookupAssoc, he]

/-- Witness for the amended claim C8: `Blog` against the entry `blog`. -/
theorem host_key_case_sensitive_witness :
    extract_host (some (( "Blog" ).toList ++ ( ".test" ).toList)) =
      Except.ok ( "Blog" ).toList
    ∧ MainService.call [(( "blog" ).toList,
        ServiceType.StaticFiles [( "www" ).toList])]
        (some (( "Blog" ).toList ++ ( ".test" ).toList)) =
      (if ( "blog" ).toList = ( "Blog" ).toList
       then Dispatch.toStaticFiles [( "www" ).toList]
       else Dispatch.response 404 []) :=
  host_key_case_sensitive ( "blog" ).toList ( "Blog" ).toList
    [( "www" ).toList] (by decide)


/-- Claim C9: for every management request line, `Reload` re-scans the
registry and the response serializes to `OK` on success or `ERROR <msg>` on
failure; `ReloadSsl` enqueues one notification and replies exactly
`OK: Ssl replacement initiated. Please check.`; an unknown or malformed line
yields an `ERROR <reason>` response without touching the state, and the
session answers every subsequent line. -/
theorem management_line_protocol (env : MgmtEnv) (st : ServerState) :
    ((load_services env.readDir st.app).2 = Except.ok () →
       stepLine env st ( "Reload" ).toList =
         ({ st with app := (load_services env.readDir st.app).1 },
          Response.Done)
       ∧ Response.serialize Response.Done = ( "OK" ).toList)
    ∧ (∀ e, (load_services env.readDir st.app).2 = Except.error e →
       stepLine env st ( "Reload" ).toList =
         ({ st with app := (load_services env.readDir st.app).1 },
          Response.Error (( "error reloading: " ).toList ++ e))
       ∧ Response.serialize (Response.Error (( "error reloading: " ).toList ++ e)) =
         ( "ERROR error reloading: " ).toList ++ e)
    ∧ (stepLine env st ( "ReloadSsl" ).toList =
        ({ st with sslSignals := st.sslSignals + 1 },
         Response.Ok ( "Ssl replacement initiated. Please check." ).toList)
       ∧ Response.serialize
           (Response.Ok ( "Ssl replacement initiated. Please check." ).toList) =
         ( "OK: Ssl replacement initiated. Please check." ).toList)
    ∧ (∀ line e2, Request.parse line = Except.error e2 →
       stepLine env st line = (st, Response.Error e2)
       ∧ Response.serialize (Response.Error e2) = ( "ERROR " ).toList ++ e2)
    ∧ (∀ lines, ((session env st lines).2).length = lines.length) := by
  have hparse : Request.parse [ 'R', 'e', 'l', 'o', 'a', 'd' ]
      = Except.ok Request.ReloadState := by decide
  refine ⟨?_, ?_, ⟨rfl, rfl⟩, ?_, ?_⟩
  · intro hok
    rcases hpair : load_services env.readDir st.app with ⟨app2, res⟩
    rw [hpair] at hok
    simp only at hok
    subst hok
    refine ⟨?_, rfl⟩
    simp [stepLine, hparse, handle_reload_state, hpair]
  · intro e herr
    rcases hpair : load_services env.readDir st.app with ⟨app2, res⟩
    rw [hpair] at herr
    simp only at herr
    subst herr
    refine ⟨?_, rfl⟩
    simp [stepLine, hparse, handle_reload_state, hpair]
  · intro line e2 hp
    exact ⟨by simp [stepLine, hp], rfl⟩
  · intro lines
    exact session_length env lines st

/-- Witness for claim C9: a failing reload, a malformed line and a
two-line session against a concrete environment. -/
theorem management_line_protocol_witness :
    stepLine ⟨Except.error ( "x" ).toList, fun _ => Except.ok ()⟩
        ⟨⟨[], [], []⟩, 0, none, ( "info" ).toList⟩ ( "Reload" ).toList =
      (⟨⟨[], [], []⟩, 0, none, ( "info" ).toList⟩,
       Response.Error ( "error reloading: reading state directory: x" ).toList)
    ∧ stepLine ⟨Except.error ( "x" ).toList, fun _ => Except.ok ()⟩
        ⟨⟨[], [], []⟩, 0, none, ( "info" ).toList⟩ ( "Bogus" ).toList =
      (⟨⟨[], [], []⟩, 0, none, ( "info" ).toList⟩,
       Response.Error ( "invalid command: Bogus" ).toList)
    ∧ ((session ⟨Except.error ( "x" ).toList, fun _ => Except.ok ()⟩
        ⟨⟨[], [], []⟩, 0, none, ( "info" ).toList⟩
        [( "Bogus" ).toList, ( "Status" ).toList]).2).length = 2 :=
  ⟨((management_line_protocol
      ⟨Except.error ( "x" ).toList, fun _ => Except.ok ()⟩
      ⟨⟨[], [], []⟩, 0, none, ( "info" ).toList⟩).2.1
      ( "reading state directory: x" ).toList (by decide)).1,
   ((management_line_protocol
      ⟨Except.error ( "x" ).toList, fun _ => Except.ok ()⟩
      ⟨⟨[], [], []⟩, 0, none, ( "info" ).toList⟩).2.2.2.1
      ( "Bogus" ).toList ( "invalid command: Bogus" ).toList (by decide)).1,
   (management_line_protocol
      ⟨Except.error ( "x" ).toList, fun _ => Except.ok ()⟩
      ⟨⟨[], [], []⟩, 0, none, ( "info" ).toList⟩).2.2.2.2
      [( "Bogus" ).toList, ( "Status" ).toList]⟩


end Duwop
